import Mathlib

/-!
Verification of the TestDisk partition-scan engine (src/src/godmode.c).

This file gives a shallow embedding of the data model and the operations of
the scanner — geometry arithmetic, the hint set, the admission gate of the
scan driver, partition alignment, the NTFS-backup retry and the synthesis of
the i386 extended partition — and proves or refutes the frozen claims about
them.  Machine integers (`uint64_t`, `unsigned int`) are represented as
natural numbers; every definition follows the corresponding C function from
godmode.c, except the few external helpers (`insert_new_partition`,
`offset2cylinder`, `td_max`) whose code is not part of the sources here and
which are modelled from the specification, as stated in their doc comments.
-/

namespace TestDisk

/-- Disk architectures, mirroring the `arch_fnct_t` pointers compared in
godmode.c (`arch_none`, `arch_gpt`, `arch_humax`, `arch_i386`, `arch_mac`,
`arch_sun`, `arch_xbox`). -/
inductive arch_t where
  | ARCH_NONE
  | ARCH_GPT
  | ARCH_HUMAX
  | ARCH_I386
  | ARCH_MAC
  | ARCH_SUN
  | ARCH_XBOX
deriving DecidableEq, Repr

/-- The slice of `disk_t` that godmode.c reads: sector size, geometry,
declared size, real size and the architecture policy. -/
structure disk_t where
  sector_size : Nat
  heads_per_cylinder : Nat
  sectors_per_head : Nat
  cylinders : Nat
  disk_size : Nat
  disk_real_size : Nat
  arch : arch_t
deriving DecidableEq, Repr

/-- A cylinder/head/sector triple (`CHS_t`). -/
structure CHS_t where
  cylinder : Nat
  head : Nat
  sector : Nat
deriving DecidableEq, Repr

/-- Partition status (`status_type_t`). -/
inductive status_t where
  | STATUS_PRIM
  | STATUS_PRIM_BOOT
  | STATUS_LOG
  | STATUS_EXT
  | STATUS_EXT_IN_EXT
  | STATUS_DELETED
deriving DecidableEq, Repr

/-- Filesystem-kind tag (`upart_type_t`); only the constructors the scanner
claims distinguish are named, the rest of the closed set is `UP_OTHER`. -/
inductive upart_type_t where
  | UP_UNKNOWN
  | UP_NTFS
  | UP_FAT32
  | UP_MD
  | UP_MD1
  | UP_OTHER
deriving DecidableEq, Repr

/-- The slice of `partition_t` that godmode.c reads and writes. -/
structure partition_t where
  part_offset : Nat
  part_size : Nat
  upart_type : upart_type_t
  status : status_t
  part_type_i386 : Nat
  order : Nat
  sb_offset : Nat
deriving DecidableEq, Repr

/-- i386 partition-type code for an extended partition (`P_EXTENDED`). -/
def P_EXTENDED : Nat := 5

/-- i386 partition-type code for an extended LBA partition (`P_EXTENDX`). -/
def P_EXTENDX : Nat := 15

/-- `offset2CHS_inline` (godmode.c:84): convert a byte offset to CHS using
the disk geometry. -/
def offset2CHS_inline (disk : disk_t) (offset : Nat) : CHS_t :=
  { sector := offset / disk.sector_size % disk.sectors_per_head + 1
    head := offset / disk.sector_size / disk.sectors_per_head
      % disk.heads_per_cylinder
    cylinder := offset / disk.sector_size / disk.sectors_per_head
      / disk.heads_per_cylinder }

/-- `CHS2offset_inline` (godmode.c:108): convert a CHS triple to a byte
offset. -/
def CHS2offset_inline (disk : disk_t) (chs : CHS_t) : Nat :=
  ((chs.cylinder * disk.heads_per_cylinder + chs.head) * disk.sectors_per_head
    + chs.sector - 1) * disk.sector_size

/-- Modelled from the spec: `offset2cylinder` lives in fnctdsk.c, which is
not among the sources; per spec section 4.1 the cylinder of an offset is
`pos / (sectors_per_head * heads_per_cylinder)` with `pos = offset /
sector_size`, i.e. the cylinder field of `offset2CHS_inline`. -/
def offset2cylinder (disk : disk_t) (offset : Nat) : Nat :=
  offset / disk.sector_size / disk.sectors_per_head / disk.heads_per_cylinder

/-- `get_location_boundary` (godmode.c:125). -/
def get_location_boundary (disk : disk_t) : Nat :=
  if disk.arch = arch_t.ARCH_MAC then 4096
  else if disk.arch = arch_t.ARCH_SUN then
    disk.heads_per_cylinder * disk.sectors_per_head * disk.sector_size
  else disk.sector_size

/-- `get_min_location` (godmode.c:635). -/
def get_min_location (disk : disk_t) : Nat :=
  if disk.arch = arch_t.ARCH_GPT then 2 * disk.sector_size + 16384
  else if disk.arch = arch_t.ARCH_I386 ∨ disk.arch = arch_t.ARCH_HUMAX then
    disk.sector_size
  else if disk.arch = arch_t.ARCH_MAC then 4096
  else if disk.arch = arch_t.ARCH_SUN then
    disk.heads_per_cylinder * disk.sectors_per_head * disk.sector_size
  else if disk.arch = arch_t.ARCH_XBOX then 0x800
  else 0

/-- The byte size of one cylinder, as godmode.c:773 spells it. -/
def cylinder_size (disk : disk_t) : Nat :=
  disk.heads_per_cylinder * disk.sectors_per_head * disk.sector_size

/-- `search_location_max` (godmode.c:773): `td_max` (modelled from the spec
as the maximum, its code is external) of the declared disk size rounded down
to a cylinder boundary plus one full cylinder, and the real disk size. -/
def search_location_max (disk : disk_t) : Nat :=
  max ((disk.disk_size / cylinder_size disk + 1) * cylinder_size disk)
    disk.disk_real_size

/-- The scan-space bound exactly as claim C6 words it: the declared size
rounded up to a whole number of cylinders, maxed with the real size.  Kept
for comparison with `search_location_max`. -/
def spec_search_max (disk : disk_t) : Nat :=
  max ((disk.disk_size + cylinder_size disk - 1) / cylinder_size disk
    * cylinder_size disk) disk.disk_real_size

/-- C4: converting a valid CHS triple to an offset and back is the identity,
and converting a sector-aligned offset to CHS and back is the identity. -/
theorem chs_offset_roundtrip (disk : disk_t)
    (hss : 0 < disk.sector_size) (hspt : 0 < disk.sectors_per_head)
    (hhpc : 0 < disk.heads_per_cylinder) :
    (∀ chs : CHS_t, chs.head < disk.heads_per_cylinder →
      1 ≤ chs.sector → chs.sector ≤ disk.sectors_per_head →
      offset2CHS_inline disk (CHS2offset_inline disk chs) = chs) ∧
    (∀ offset : Nat, disk.sector_size ∣ offset →
      CHS2offset_inline disk (offset2CHS_inline disk offset) = offset) := by
  constructor
  · rintro ⟨c, h, s⟩ hh hs1 hs2
    dsimp only at hh hs1 hs2
    simp only [CHS2offset_inline, offset2CHS_inline]
    rw [Nat.mul_div_cancel _ hss, Nat.add_sub_assoc hs1]
    have hs' : s - 1 < disk.sectors_per_head := by omega
    rw [Nat.add_comm ((c * disk.heads_per_cylinder + h) * disk.sectors_per_head)
      (s - 1)]
    rw [Nat.add_mul_mod_self_right, Nat.mod_eq_of_lt hs']
    rw [Nat.add_mul_div_right _ _ hspt, Nat.div_eq_of_lt hs', Nat.zero_add]
    rw [Nat.mul_comm c, Nat.mul_add_mod, Nat.mod_eq_of_lt hh]
    rw [Nat.mul_add_div hhpc, Nat.div_eq_of_lt hh, Nat.add_zero]
    have hfin : s - 1 + 1 = s := by omega
    rw [hfin]
  · rintro offset ⟨k, rfl⟩
    simp only [offset2CHS_inline, CHS2offset_inline]
    rw [Nat.mul_comm disk.sector_size k, Nat.mul_div_cancel _ hss]
    have h1 : k / disk.sectors_per_head / disk.heads_per_cylinder
          * disk.heads_per_cylinder + k / disk.sectors_per_head
          % disk.heads_per_cylinder = k / disk.sectors_per_head := by
      rw [Nat.mul_comm]
      exact Nat.div_add_mod _ _
    have h2 : k / disk.sectors_per_head * disk.sectors_per_head
        + k % disk.sectors_per_head = k := by
      rw [Nat.mul_comm]
      exact Nat.div_add_mod _ _
    rw [Nat.add_sub_assoc (by omega), Nat.add_sub_cancel, h1, h2]

/-- Witness for C4 at a concrete geometry (512-byte sectors, 16 heads, 63
sectors per head). -/
theorem chs_offset_roundtrip_witness :
    offset2CHS_inline ⟨512, 16, 63, 100, 0, 0, arch_t.ARCH_I386⟩
      (CHS2offset_inline ⟨512, 16, 63, 100, 0, 0, arch_t.ARCH_I386⟩ ⟨3, 2, 5⟩)
      = ⟨3, 2, 5⟩ ∧
    CHS2offset_inline ⟨512, 16, 63, 100, 0, 0, arch_t.ARCH_I386⟩
      (offset2CHS_inline ⟨512, 16, 63, 100, 0, 0, arch_t.ARCH_I386⟩ 1048576)
      = 1048576 :=
  ⟨(chs_offset_roundtrip ⟨512, 16, 63, 100, 0, 0, arch_t.ARCH_I386⟩
      (by decide) (by decide) (by decide)).1 ⟨3, 2, 5⟩ (by decide) (by decide)
      (by decide),
   (chs_offset_roundtrip ⟨512, 16, 63, 100, 0, 0, arch_t.ARCH_I386⟩
      (by decide) (by decide) (by decide)).2 1048576 ⟨2048, rfl⟩⟩

/-- `MAX_SEARCH_LOCATION` (godmode.c:55): the declared capacity of the two
hint arrays. -/
def MAX_SEARCH_LOCATION : Nat := 1024

/-- The insertion loop of `hint_insert` (godmode.c:510-517): scan past the
entries smaller than `offset`, return unchanged if `offset` is already
present, otherwise shift the tail up and place `offset`. -/
def hint_ins (offset : Nat) : List Nat → List Nat
  | [] => [offset]
  | x :: t =>
    if x < offset then x :: hint_ins offset t
    else if x = offset then x :: t
    else offset :: x :: t

/-- `hint_insert` (godmode.c:506): sorted duplicate-free insertion into a
hint array, guarded by `*tab_nbr < MAX_SEARCH_LOCATION - 1`. -/
def hint_insert (tab : List Nat) (offset : Nat) : List Nat :=
  if tab.length < MAX_SEARCH_LOCATION - 1 then hint_ins offset tab else tab

theorem mem_hint_ins {y offset : Nat} {l : List Nat}
    (h : y ∈ hint_ins offset l) : y = offset ∨ y ∈ l := by
  induction l with
  | nil => simpa [hint_ins] using h
  | cons x t ih =>
    by_cases h1 : x < offset
    · simp only [hint_ins, if_pos h1, List.mem_cons] at h
      rcases h with rfl | h
      · right; exact List.mem_cons_self _ _
      · rcases ih h with h | h
        · left; exact h
        · right; exact List.mem_cons_of_mem _ h
    · by_cases h2 : x = offset
      · simp only [hint_ins, if_neg h1, if_pos h2] at h
        right; exact h
      · simp only [hint_ins, if_neg h1, if_neg h2, List.mem_cons] at h
        rcases h with rfl | h
        · left; rfl
        · right; simpa using h

theorem hint_ins_sorted {offset : Nat} {l : List Nat}
    (h : List.Sorted (· < ·) l) :
    List.Sorted (· < ·) (hint_ins offset l) := by
  induction l with
  | nil => simp [hint_ins]
  | cons x t ih =>
    rw [List.sorted_cons] at h
    by_cases h1 : x < offset
    · rw [hint_ins, if_pos h1, List.sorted_cons]
      refine ⟨?_, ih h.2⟩
      intro b hb
      rcases mem_hint_ins hb with rfl | hb
      · exact h1
      · exact h.1 b hb
    · by_cases h2 : x = offset
      · rw [hint_ins, if_neg h1, if_pos h2, List.sorted_cons]
        exact h
      · rw [hint_ins, if_neg h1, if_neg h2, List.sorted_cons]
        refine ⟨?_, List.sorted_cons.mpr h⟩
        intro b hb
        rcases List.mem_cons.mp hb with rfl | hb
        · omega
        · have := h.1 b hb
          omega

theorem hint_insert_sorted {offset : Nat} {tab : List Nat}
    (h : List.Sorted (· < ·) tab) :
    List.Sorted (· < ·) (hint_insert tab offset) := by
  rw [hint_insert]
  split
  · exact hint_ins_sorted h
  · exact h

theorem hint_ins_mem_noop {offset : Nat} {l : List Nat}
    (hs : List.Sorted (· < ·) l) (hm : offset ∈ l) :
    hint_ins offset l = l := by
  induction l with
  | nil => cases hm
  | cons x t ih =>
    rw [List.sorted_cons] at hs
    rcases List.mem_cons.mp hm with rfl | hm
    · rw [hint_ins, if_neg (Nat.lt_irrefl _), if_pos rfl]
    · have hx : x < offset := hs.1 offset hm
      rw [hint_ins, if_pos hx, ih hs.2 hm]

/-- When every element of the array is smaller than the new offset, the
insertion appends it at the end. -/
theorem hint_ins_append {offset : Nat} {l : List Nat}
    (h : ∀ x ∈ l, x < offset) : hint_ins offset l = l ++ [offset] := by
  induction l with
  | nil => rfl
  | cons x t ih =>
    rw [hint_ins, if_pos (h x (List.mem_cons_self _ _)), ih]
    · rfl
    · intro y hy
      exact h y (List.mem_cons_of_mem _ hy)

/-- Filling the hint array by inserting `0, 1, ..., n-1` in order produces
exactly `List.range n` while `n ≤ 1023`. -/
theorem hint_fold_range (n : Nat) (hn : n ≤ MAX_SEARCH_LOCATION - 1) :
    List.foldl hint_insert [] (List.range n) = List.range n := by
  induction n with
  | zero => rfl
  | succ m ih =>
    rw [List.range_succ, List.foldl_append, ih (by omega)]
    simp only [List.foldl_cons, List.foldl_nil]
    rw [hint_insert, if_pos (by simpa using by omega),
      hint_ins_append (by simp), ← List.range_succ]

/-- C5 (amended): from the empty array every sequence of `hint_insert`
calls yields a strictly ascending array; inserting an offset that is
already present leaves a sorted array unchanged; and inserting into an
array that already holds 1023 entries (the effective capacity, one below
the declared 1024 slots) is a no-op. -/
theorem hint_insert_invariants :
    (∀ offs : List Nat, List.Sorted (· < ·) (List.foldl hint_insert [] offs)) ∧
    (∀ tab offset, List.Sorted (· < ·) tab → offset ∈ tab →
      hint_insert tab offset = tab) ∧
    (∀ tab offset, MAX_SEARCH_LOCATION - 1 ≤ tab.length →
      hint_insert tab offset = tab) := by
  refine ⟨?_, ?_, ?_⟩
  · intro offs
    have aux : ∀ (l : List Nat) (tab : List Nat), List.Sorted (· < ·) tab →
        List.Sorted (· < ·) (List.foldl hint_insert tab l) := by
      intro l
      induction l with
      | nil => intro tab h; exact h
      | cons o t ih =>
        intro tab h
        exact ih _ (hint_insert_sorted h)
    exact aux offs [] (by simp)
  · intro tab offset hs hm
    rw [hint_insert]
    split
    · exact hint_ins_mem_noop hs hm
    · rfl
  · intro tab offset hlen
    rw [hint_insert, if_neg (by omega)]

/-- Witness for C5 at concrete inputs: a fold that stays sorted, a
duplicate insertion that is dropped, and a drop at the effective
capacity. -/
theorem hint_insert_invariants_witness :
    List.Sorted (· < ·) (List.foldl hint_insert [] [5, 3, 5, 1]) ∧
    hint_insert [1, 3, 7] 3 = [1, 3, 7] ∧
    hint_insert (List.range 1023) 5000 = List.range 1023 :=
  ⟨hint_insert_invariants.1 [5, 3, 5, 1],
   hint_insert_invariants.2.1 [1, 3, 7] 3 (by decide) (by decide),
   hint_insert_invariants.2.2 (List.range 1023) 5000
     (by simp [MAX_SEARCH_LOCATION])⟩

/-- Counterexample for C5 as frozen: a strictly ascending array of 1023
distinct offsets — reachable from the empty array, and below the claimed
capacity of 1024 — silently drops a fresh offset, so the hint set's
capacity is 1023, not 1024. -/
theorem hint_insert_capacity_counterexample :
    List.foldl hint_insert [] (List.range 1023) = List.range 1023 ∧
    (List.range 1023).length = 1023 ∧
    5000 ∉ List.range 1023 ∧
    hint_insert (List.range 1023) 5000 = List.range 1023 := by
  refine ⟨hint_fold_range 1023 (by decide), by simp, by simp, ?_⟩
  rw [hint_insert, if_neg (by simp [MAX_SEARCH_LOCATION])]

/-- `align_structure_aux` (godmode.c:148): the alignment boundary for an
offset on an i386 disk — 1 MiB, the cylinder size, the head size or the
sector size. -/
def align_structure_aux (offset : Nat) (disk : disk_t) : Nat :=
  if offset % (1024 * 1024) = 0 then 1024 * 1024
  else if offset % (disk.heads_per_cylinder * disk.sectors_per_head
        * disk.sector_size) = 0
      ∨ offset % (disk.heads_per_cylinder * disk.sectors_per_head
        * disk.sector_size) = disk.sectors_per_head * disk.sector_size then
    disk.heads_per_cylinder * disk.sectors_per_head * disk.sector_size
  else if offset % (disk.sectors_per_head * disk.sector_size) = 0 then
    disk.sectors_per_head * disk.sector_size
  else disk.sector_size

/-- The boundary rule exactly as claim C3 words it: cylinder size whenever
the offset is a multiple of the cylinder size or a multiple of the head
size.  Kept for comparison with `align_structure_aux`. -/
def align_boundary_claimed (offset : Nat) (disk : disk_t) : Nat :=
  if offset % (1024 * 1024) = 0 then 1024 * 1024
  else if offset % (disk.heads_per_cylinder * disk.sectors_per_head
        * disk.sector_size) = 0
      ∨ offset % (disk.sectors_per_head * disk.sector_size) = 0 then
    disk.heads_per_cylinder * disk.sectors_per_head * disk.sector_size
  else if offset % (disk.sectors_per_head * disk.sector_size) = 0 then
    disk.sectors_per_head * disk.sector_size
  else disk.sector_size

/-- Counterexample for C3 as frozen: on a 16-head, 63-sector, 512-byte
disk the offset 64512 = 2 × head size is a multiple of the head size but
not of the cylinder size, and `align_structure_aux` answers the head size
(32256), not the cylinder size (516096) the claim promises. -/
theorem align_boundary_counterexample :
    align_structure_aux 64512 ⟨512, 16, 63, 100, 0, 0, arch_t.ARCH_I386⟩
      = 32256 ∧
    align_boundary_claimed 64512 ⟨512, 16, 63, 100, 0, 0, arch_t.ARCH_I386⟩
      = 516096 ∧
    64512 % (63 * 512) = 0 ∧
    align_structure_aux 64512 ⟨512, 16, 63, 100, 0, 0, arch_t.ARCH_I386⟩
      ≠ align_boundary_claimed 64512 ⟨512, 16, 63, 100, 0, 0, arch_t.ARCH_I386⟩ := by
  refine ⟨?_, ?_, by norm_num, ?_⟩ <;> decide

/-- C3 (amended): the i386 boundary is 1 MiB for 1 MiB multiples;
otherwise the cylinder size when the offset is a multiple of the cylinder
size or its remainder modulo the cylinder size equals the head size;
otherwise the head size for head-size multiples; otherwise the sector
size. -/
theorem align_structure_aux_cases (offset : Nat) (disk : disk_t) :
    (offset % (1024 * 1024) = 0 → align_structure_aux offset disk = 1024 * 1024) ∧
    (offset % (1024 * 1024) ≠ 0 →
      (offset % (disk.heads_per_cylinder * disk.sectors_per_head
          * disk.sector_size) = 0 ∨
       offset % (disk.heads_per_cylinder * disk.sectors_per_head
          * disk.sector_size) = disk.sectors_per_head * disk.sector_size) →
      align_structure_aux offset disk
        = disk.heads_per_cylinder * disk.sectors_per_head * disk.sector_size) ∧
    (offset % (1024 * 1024) ≠ 0 →
      offset % (disk.heads_per_cylinder * disk.sectors_per_head
        * disk.sector_size) ≠ 0 →
      offset % (disk.heads_per_cylinder * disk.sectors_per_head
        * disk.sector_size) ≠ disk.sectors_per_head * disk.sector_size →
      offset % (disk.sectors_per_head * disk.sector_size) = 0 →
      align_structure_aux offset disk
        = disk.sectors_per_head * disk.sector_size) ∧
    (offset % (1024 * 1024) ≠ 0 →
      offset % (disk.heads_per_cylinder * disk.sectors_per_head
        * disk.sector_size) ≠ 0 →
      offset % (disk.heads_per_cylinder * disk.sectors_per_head
        * disk.sector_size) ≠ disk.sectors_per_head * disk.sector_size →
      offset % (disk.sectors_per_head * disk.sector_size) ≠ 0 →
      align_structure_aux offset disk = disk.sector_size) := by
  refine ⟨?_, ?_, ?_, ?_⟩
  · intro h1
    rw [align_structure_aux, if_pos h1]
  · intro h1 h2
    rw [align_structure_aux, if_neg h1, if_pos h2]
  · intro h1 h2 h3 h4
    rw [align_structure_aux, if_neg h1, if_neg (by tauto), if_pos h4]
  · intro h1 h2 h3 h4
    rw [align_structure_aux, if_neg h1, if_neg (by tauto), if_neg h4]

/-- Witness for C3 applying each case of the amended rule at a concrete
offset on the 16/63/512 geometry. -/
theorem align_structure_aux_cases_witness :
    align_structure_aux 2097152 ⟨512, 16, 63, 100, 0, 0, arch_t.ARCH_I386⟩
      = 1024 * 1024 ∧
    align_structure_aux 1548288 ⟨512, 16, 63, 100, 0, 0, arch_t.ARCH_I386⟩
      = 16 * 63 * 512 ∧
    align_structure_aux 64512 ⟨512, 16, 63, 100, 0, 0, arch_t.ARCH_I386⟩
      = 63 * 512 ∧
    align_structure_aux 1024 ⟨512, 16, 63, 100, 0, 0, arch_t.ARCH_I386⟩
      = 512 :=
  ⟨(align_structure_aux_cases 2097152 _).1 (by norm_num),
   (align_structure_aux_cases 1548288 _).2.1 (by norm_num) (by norm_num),
   (align_structure_aux_cases 64512 _).2.2.1 (by norm_num) (by norm_num)
     (by norm_num) (by norm_num),
   (align_structure_aux_cases 1024 _).2.2.2 (by norm_num) (by norm_num)
     (by norm_num) (by norm_num)⟩

/-- The boundary `align_structure_i386` (godmode.c:174) finally uses for
one list entry: the sector size when `align` is off, otherwise
`align_structure_aux`, demoted back to the sector size when rounding up to
that boundary would make the partition reach into the next entry's start. -/
def chosen_boundary_i386 (disk : disk_t) (align : Bool) (p : partition_t)
    (next? : Option partition_t) : Nat :=
  let b := if align then align_structure_aux p.part_offset disk
    else disk.sector_size
  match next? with
  | some nx =>
    if align = true ∧ p.part_offset + p.part_size - 1 < nx.part_offset ∧
        nx.part_offset ≤ (p.part_offset + p.part_size - 1 + b - 1) / b * b - 1
    then disk.sector_size
    else b
  | none => b

/-- The new size `align_structure_i386` assigns to one entry: round the
last byte up to the chosen boundary. -/
def align_size_i386 (disk : disk_t) (align : Bool) (p : partition_t)
    (next? : Option partition_t) : Nat :=
  ((p.part_offset + p.part_size - 1 + chosen_boundary_i386 disk align p next? - 1)
      / chosen_boundary_i386 disk align p next?
      * chosen_boundary_i386 disk align p next? - 1)
    - p.part_offset + 1

/-- `align_structure_i386` (godmode.c:174): walk the list, resizing each
partition against its own boundary, looking one entry ahead for the
overlap fallback.  Only `part_size` is written; the next entry is
inspected through its (unchanged) `part_offset`. -/
def align_structure_i386 (disk : disk_t) (align : Bool) :
    List partition_t → List partition_t
  | [] => []
  | p :: rest =>
    { p with part_size := align_size_i386 disk align p rest.head? }
      :: align_structure_i386 disk align rest

/-- The new size `align_structure` (godmode.c:213) assigns on non-i386
architectures, with the flat location boundary. -/
def align_size_flat (lb : Nat) (p : partition_t) : Nat :=
  ((p.part_offset + p.part_size - 1 + lb - 1) / lb * lb - 1) - p.part_offset + 1

/-- `align_structure` (godmode.c:213): i386 gets the per-entry boundary
walk, every other architecture the flat `get_location_boundary`. -/
def align_structure (disk : disk_t) (align : Bool) (l : List partition_t) :
    List partition_t :=
  if disk.arch = arch_t.ARCH_I386 then align_structure_i386 disk align l
  else l.map fun p =>
    { p with part_size := align_size_flat (get_location_boundary disk) p }

/-- The alignment boundary chosen for one entry by `align_structure`. -/
def chosen_boundary (disk : disk_t) (align : Bool) (p : partition_t)
    (next? : Option partition_t) : Nat :=
  if disk.arch = arch_t.ARCH_I386 then chosen_boundary_i386 disk align p next?
  else get_location_boundary disk

/-- A partition with its size blanked, for frame statements. -/
def erase_size (p : partition_t) : partition_t := { p with part_size := 0 }

theorem roundup_ge (E b : Nat) (hb : 0 < b) : E ≤ (E + b - 1) / b * b := by
  have h1 := Nat.div_add_mod (E + b - 1) b
  have h2 : (E + b - 1) % b < b := Nat.mod_lt _ hb
  rw [Nat.mul_comm]
  generalize hA : b * ((E + b - 1) / b) = A at h1 ⊢
  generalize hr : (E + b - 1) % b = r at h1 h2
  omega

theorem align_size_aligned (b off sz : Nat) (hb : 0 < b) (hsz : 2 ≤ sz) :
    (off + (((off + sz - 1 + b - 1) / b * b - 1) - off + 1)) % b = 0 := by
  have hR := roundup_ge (off + sz - 1) b hb
  have hE : off + 1 ≤ off + sz - 1 := by omega
  have hmod : (off + sz - 1 + b - 1) / b * b % b = 0 := Nat.mul_mod_left _ _
  have heq : off + (((off + sz - 1 + b - 1) / b * b - 1) - off + 1)
      = (off + sz - 1 + b - 1) / b * b := by
    generalize (off + sz - 1 + b - 1) / b * b = R at hR ⊢
    omega
  rw [heq]
  exact hmod

theorem align_structure_aux_pos (offset : Nat) (disk : disk_t)
    (hss : 0 < disk.sector_size) (hspt : 0 < disk.sectors_per_head)
    (hhpc : 0 < disk.heads_per_cylinder) :
    0 < align_structure_aux offset disk := by
  rw [align_structure_aux]
  split
  · omega
  split
  · exact Nat.mul_pos (Nat.mul_pos hhpc hspt) hss
  split
  · exact Nat.mul_pos hspt hss
  · exact hss

theorem chosen_boundary_i386_pos (disk : disk_t) (align : Bool)
    (p : partition_t) (next? : Option partition_t)
    (hss : 0 < disk.sector_size) (hspt : 0 < disk.sectors_per_head)
    (hhpc : 0 < disk.heads_per_cylinder) :
    0 < chosen_boundary_i386 disk align p next? := by
  have hb : (0 : Nat) < if align then align_structure_aux p.part_offset disk
      else disk.sector_size := by
    split
    · exact align_structure_aux_pos _ _ hss hspt hhpc
    · exact hss
  cases next? with
  | none =>
    simpa only [chosen_boundary_i386] using hb
  | some nx =>
    simp only [chosen_boundary_i386]
    split <;> split <;>
      first
        | exact hss
        | exact align_structure_aux_pos _ _ hss hspt hhpc

theorem get_location_boundary_pos (disk : disk_t)
    (hss : 0 < disk.sector_size) (hspt : 0 < disk.sectors_per_head)
    (hhpc : 0 < disk.heads_per_cylinder) :
    0 < get_location_boundary disk := by
  rw [get_location_boundary]
  split
  · omega
  split
  · exact Nat.mul_pos (Nat.mul_pos hhpc hspt) hss
  · exact hss

theorem align_structure_i386_frame (disk : disk_t) (align : Bool)
    (l : List partition_t) :
    (align_structure_i386 disk align l).map erase_size = l.map erase_size := by
  induction l with
  | nil => rfl
  | cons p rest ih =>
    simp only [align_structure_i386, List.map_cons, ih, List.cons.injEq,
      and_true]
    rfl

theorem align_structure_i386_aligned (disk : disk_t) (align : Bool)
    (hss : 0 < disk.sector_size) (hspt : 0 < disk.sectors_per_head)
    (hhpc : 0 < disk.heads_per_cylinder) :
    ∀ (l : List partition_t), (∀ p ∈ l, 2 ≤ p.part_size) →
    ∀ i p q, l[i]? = some p →
      (align_structure_i386 disk align l)[i]? = some q →
      (q.part_offset + q.part_size)
        % chosen_boundary_i386 disk align p l[i + 1]? = 0 := by
  intro l
  induction l with
  | nil =>
    intro _ i p q hp
    simp at hp
  | cons p0 rest ih =>
    intro hsz i p q hp hq
    cases i with
    | zero =>
      rw [List.getElem?_cons_zero, Option.some.injEq] at hp
      rw [align_structure_i386, List.getElem?_cons_zero, Option.some.injEq] at hq
      subst hp
      subst hq
      rw [List.getElem?_cons_succ, ← List.head?_eq_getElem? rest]
      have hb : 0 < chosen_boundary_i386 disk align p0 rest.head? :=
        chosen_boundary_i386_pos disk align p0 rest.head? hss hspt hhpc
      have hps : 2 ≤ p0.part_size := hsz p0 (List.mem_cons_self _ _)
      simpa [align_size_i386] using
        align_size_aligned (chosen_boundary_i386 disk align p0 rest.head?)
          p0.part_offset p0.part_size hb hps
    | succ j =>
      rw [List.getElem?_cons_succ] at hp
      rw [align_structure_i386, List.getElem?_cons_succ] at hq
      rw [List.getElem?_cons_succ]
      exact ih (fun r hr => hsz r (List.mem_cons_of_mem _ hr)) j p q hp hq

/-- C10: `align_structure` rewrites only each partition's size — every
other field, the order and the length of the list are untouched — and
afterwards each partition's start plus size is an exact multiple of the
alignment boundary chosen for that entry. -/
theorem align_structure_spec (disk : disk_t) (align : Bool)
    (l : List partition_t)
    (hss : 0 < disk.sector_size) (hspt : 0 < disk.sectors_per_head)
    (hhpc : 0 < disk.heads_per_cylinder)
    (hsz : ∀ p ∈ l, 2 ≤ p.part_size) :
    (align_structure disk align l).map erase_size = l.map erase_size ∧
    ∀ i p q, l[i]? = some p →
      (align_structure disk align l)[i]? = some q →
      (q.part_offset + q.part_size)
        % chosen_boundary disk align p l[i + 1]? = 0 := by
  by_cases harch : disk.arch = arch_t.ARCH_I386
  · constructor
    · simp only [align_structure, if_pos harch]
      exact align_structure_i386_frame disk align l
    · simp only [align_structure, chosen_boundary, if_pos harch]
      exact align_structure_i386_aligned disk align hss hspt hhpc l hsz
  · constructor
    · simp only [align_structure, if_neg harch, List.map_map]
      rfl
    · simp only [align_structure, chosen_boundary, if_neg harch]
      intro i p q hp hq
      rw [List.getElem?_map, hp, Option.map_some', Option.some.injEq] at hq
      subst hq
      have hb : 0 < get_location_boundary disk :=
        get_location_boundary_pos disk hss hspt hhpc
      have hps : 2 ≤ p.part_size := hsz _ (List.getElem?_mem hp)
      simpa [align_size_flat] using
        align_size_aligned (get_location_boundary disk)
          p.part_offset p.part_size hb hps

/-- Witness for C10: a one-entry list on a 16/63/512 i386 disk. -/
theorem align_structure_spec_witness :
    (align_structure ⟨512, 16, 63, 100, 67108864, 67108864, arch_t.ARCH_I386⟩
        true [⟨1048576, 4096, upart_type_t.UP_NTFS, status_t.STATUS_DELETED,
          7, 0, 0⟩]).map erase_size
      = [erase_size ⟨1048576, 4096, upart_type_t.UP_NTFS,
          status_t.STATUS_DELETED, 7, 0, 0⟩] ∧
    ∀ q, (align_structure ⟨512, 16, 63, 100, 67108864, 67108864,
        arch_t.ARCH_I386⟩ true
        [⟨1048576, 4096, upart_type_t.UP_NTFS, status_t.STATUS_DELETED,
          7, 0, 0⟩])[0]? = some q →
      (q.part_offset + q.part_size)
        % chosen_boundary ⟨512, 16, 63, 100, 67108864, 67108864,
            arch_t.ARCH_I386⟩ true
          ⟨1048576, 4096, upart_type_t.UP_NTFS, status_t.STATUS_DELETED,
            7, 0, 0⟩
          ([⟨1048576, 4096, upart_type_t.UP_NTFS, status_t.STATUS_DELETED,
            7, 0, 0⟩] : List partition_t)[1]? = 0 := by
  have h := align_structure_spec
    ⟨512, 16, 63, 100, 67108864, 67108864, arch_t.ARCH_I386⟩ true
    [⟨1048576, 4096, upart_type_t.UP_NTFS, status_t.STATUS_DELETED, 7, 0, 0⟩]
    (by decide) (by decide) (by decide) (by decide)
  exact ⟨h.1, fun q hq => h.2 0 _ q rfl hq⟩

/-- Operator signals (`indstop_t`, godmode.c:709). -/
inductive indstop_t where
  | INDSTOP_CONTINUE
  | INDSTOP_STOP
  | INDSTOP_SKIP
  | INDSTOP_QUIT
  | INDSTOP_PLUS
deriving DecidableEq, Repr

/-- Sorted insertion by start offset into a partition list. -/
def insertSortedByOffset (p : partition_t) : List partition_t → List partition_t
  | [] => [p]
  | q :: t =>
    if p.part_offset < q.part_offset then p :: q :: t
    else q :: insertSortedByOffset p t

/-- Modelled from the spec: `insert_new_partition` lives in fnctdsk.c,
which is not among the sources; per spec sections 2 and 9 it is an
order-preserving insertion that rejects exact duplicates (returning the
list unchanged and flagging the caller's `insert_error`). -/
def insert_new_partition (l : List partition_t) (p : partition_t) :
    List partition_t :=
  if p ∈ l then l else insertSortedByOffset p l

theorem mem_insertSortedByOffset {q p : partition_t} {l : List partition_t} :
    q ∈ insertSortedByOffset p l ↔ q = p ∨ q ∈ l := by
  induction l with
  | nil => simp [insertSortedByOffset]
  | cons x t ih =>
    rw [insertSortedByOffset]
    split
    · simp
    · simp only [List.mem_cons, ih]
      tauto

theorem mem_insert_new_partition {q p : partition_t} {l : List partition_t} :
    q ∈ insert_new_partition l p ↔ q ∈ l ∨ q = p := by
  rw [insert_new_partition]
  split
  · rename_i hmem
    constructor
    · exact Or.inl
    · rintro (h | rfl)
      · exact h
      · exact hmem
  · rw [mem_insertSortedByOffset]
    tauto

/-- The scan driver's state that the claims speak about: the linear
cursor, the good and bad lists and the operator signal.  The hint arrays
are the separate `hint_insert` structures above. -/
structure scan_state where
  search_location : Nat
  good : List partition_t
  bad : List partition_t
  ind_stop : indstop_t
deriving DecidableEq, Repr

/-- The positive-probe bookkeeping of `search_part` (godmode.c:1071-1157):
stamp the descriptor deleted, admit it to the good list when the kind is
known, the size exceeds one byte, the start is at or past the minimum
location and the last byte is within `search_location_max`; route it to
the bad list when only the last test fails; in `fast_mode == 0` jump the
cursor over the interior of an admitted partition.  Hint generation and
logging are elided — they do not touch the cursor or the two lists. -/
def record_result (disk : disk_t) (is_known : partition_t → Bool)
    (fast_mode : Nat) (st : scan_state) (p0 : partition_t) : scan_state :=
  let p := { p0 with status := status_t.STATUS_DELETED }
  if is_known p = true ∧ 1 < p.part_size ∧
      get_min_location disk ≤ p.part_offset then
    if p.part_offset + p.part_size - 1 ≤ search_location_max disk then
      { st with
        good := insert_new_partition st.good p
        search_location :=
          if fast_mode = 0 ∧ st.search_location
              < p.part_offset + p.part_size - disk.sector_size then
            p.part_offset + p.part_size - disk.sector_size
          else st.search_location }
    else { st with bad := insert_new_partition st.bad p }
  else st

/-- One probe outcome handled by `search_part` (godmode.c:1060-1157): a
negative result is a read error — the lists and the signal are untouched
and the cursor jumps to `search_location_max` only when it already sits at
or past the real disk size; a positive result goes through
`record_result`; zero is no match. -/
def probe_step (disk : disk_t) (is_known : partition_t → Bool)
    (fast_mode : Nat) (st : scan_state) (res : Int) (p0 : partition_t) :
    scan_state :=
  if res < 0 then
    if disk.disk_real_size ≤ st.search_location then
      { st with search_location := search_location_max disk }
    else st
  else if 0 < res then record_result disk is_known fast_mode st p0
  else st

/-- A scan run reduced to the sequence of probe outcomes it handles. -/
def run_probes (disk : disk_t) (is_known : partition_t → Bool)
    (fast_mode : Nat) (st : scan_state)
    (results : List (Int × partition_t)) : scan_state :=
  results.foldl (fun s r => probe_step disk is_known fast_mode s r.1 r.2) st

/-- The admission bounds every good-list member satisfies. -/
def good_admissible (disk : disk_t) (q : partition_t) : Prop :=
  get_min_location disk ≤ q.part_offset ∧
  q.part_offset + q.part_size - 1 ≤ search_location_max disk ∧
  2 ≤ q.part_size

theorem probe_step_good_inv (disk : disk_t) (is_known : partition_t → Bool)
    (fast_mode : Nat) (st : scan_state) (res : Int) (p0 : partition_t)
    (hinv : ∀ q ∈ st.good, good_admissible disk q) :
    ∀ q ∈ (probe_step disk is_known fast_mode st res p0).good,
      good_admissible disk q := by
  rw [probe_step]
  split
  · split
    · exact hinv
    · exact hinv
  split
  · rw [record_result]
    split
    · rename_i hgate
      split
      · rename_i hfin
        intro q hq
        rcases mem_insert_new_partition.mp hq with hq | rfl
        · exact hinv q hq
        · exact ⟨hgate.2.2, hfin, by omega⟩
      · exact hinv
    · exact hinv
  · exact hinv

/-- C1 (amended): every partition the scan driver inserts into the good
list starts at or after `get_min_location`, its last byte
(start + size − 1) is at most `search_location_max`, and its size is at
least 2 bytes (the gate is `part_size > 1`, in bytes, not two sectors). -/
theorem search_part_good_invariant (disk : disk_t)
    (is_known : partition_t → Bool) (fast_mode : Nat) (loc0 : Nat)
    (results : List (Int × partition_t)) (q : partition_t)
    (hq : q ∈ (run_probes disk is_known fast_mode
      ⟨loc0, [], [], indstop_t.INDSTOP_CONTINUE⟩ results).good) :
    get_min_location disk ≤ q.part_offset ∧
    q.part_offset + q.part_size - 1 ≤ search_location_max disk ∧
    2 ≤ q.part_size := by
  have aux : ∀ (rs : List (Int × partition_t)) (st : scan_state),
      (∀ r ∈ st.good, good_admissible disk r) →
      ∀ r ∈ (run_probes disk is_known fast_mode st rs).good,
        good_admissible disk r := by
    intro rs
    induction rs with
    | nil => intro st h; exact h
    | cons x t ih =>
      intro st h
      exact ih _ (probe_step_good_inv disk is_known fast_mode st x.1 x.2 h)
  exact aux results ⟨loc0, [], [], indstop_t.INDSTOP_CONTINUE⟩
    (by intro r hr; cases hr) q hq

/-- Witness for C1 on a one-cylinder 16/63/512 i386 disk: a single
successful probe leaves one admitted partition in the good list. -/
theorem search_part_good_invariant_witness :
    get_min_location ⟨512, 16, 63, 1, 516096, 516096, arch_t.ARCH_I386⟩
      ≤ (⟨4096, 8192, upart_type_t.UP_NTFS, status_t.STATUS_DELETED, 7, 0, 0⟩
        : partition_t).part_offset ∧
    (⟨4096, 8192, upart_type_t.UP_NTFS, status_t.STATUS_DELETED, 7, 0, 0⟩
        : partition_t).part_offset
      + (⟨4096, 8192, upart_type_t.UP_NTFS, status_t.STATUS_DELETED, 7, 0, 0⟩
        : partition_t).part_size - 1
      ≤ search_location_max ⟨512, 16, 63, 1, 516096, 516096, arch_t.ARCH_I386⟩ ∧
    2 ≤ (⟨4096, 8192, upart_type_t.UP_NTFS, status_t.STATUS_DELETED, 7, 0, 0⟩
        : partition_t).part_size :=
  search_part_good_invariant
    ⟨512, 16, 63, 1, 516096, 516096, arch_t.ARCH_I386⟩ (fun _ => true) 1 512
    [(1, ⟨4096, 8192, upart_type_t.UP_NTFS, status_t.STATUS_PRIM, 7, 0, 0⟩)]
    ⟨4096, 8192, upart_type_t.UP_NTFS, status_t.STATUS_DELETED, 7, 0, 0⟩
    (by decide)

/-- Counterexample for C1 as frozen: a 2-byte partition ending exactly at
`search_location_max` is admitted to the good list, yet its size is far
below 2 sector sizes and its start plus size exceeds `search_location_max`
by one. -/
theorem search_part_good_counterexample :
    (⟨1032191, 2, upart_type_t.UP_NTFS, status_t.STATUS_DELETED, 7, 0, 0⟩
        : partition_t)
      ∈ (run_probes ⟨512, 16, 63, 1, 516096, 516096, arch_t.ARCH_I386⟩
        (fun _ => true) 1
        ⟨512, [], [], indstop_t.INDSTOP_CONTINUE⟩
        [(1, ⟨1032191, 2, upart_type_t.UP_NTFS, status_t.STATUS_PRIM,
          7, 0, 0⟩)]).good ∧
    ¬((⟨1032191, 2, upart_type_t.UP_NTFS, status_t.STATUS_DELETED, 7, 0, 0⟩
        : partition_t).part_offset
      + (⟨1032191, 2, upart_type_t.UP_NTFS, status_t.STATUS_DELETED, 7, 0, 0⟩
        : partition_t).part_size
      ≤ search_location_max ⟨512, 16, 63, 1, 516096, 516096, arch_t.ARCH_I386⟩) ∧
    ¬(2 * 512
      ≤ (⟨1032191, 2, upart_type_t.UP_NTFS, status_t.STATUS_DELETED, 7, 0, 0⟩
        : partition_t).part_size) := by
  decide

/-- C8: a read error (negative probe result) leaves the good list, the bad
list and the operator signal untouched; the cursor is moved to
`search_location_max` exactly when it already sits at or past the real
disk size, and is unchanged otherwise. -/
theorem probe_step_read_error (disk : disk_t) (is_known : partition_t → Bool)
    (fast_mode : Nat) (st : scan_state) (res : Int) (p0 : partition_t)
    (h : res < 0) :
    (probe_step disk is_known fast_mode st res p0).good = st.good ∧
    (probe_step disk is_known fast_mode st res p0).bad = st.bad ∧
    (probe_step disk is_known fast_mode st res p0).ind_stop = st.ind_stop ∧
    (probe_step disk is_known fast_mode st res p0).search_location =
      (if disk.disk_real_size ≤ st.search_location then
        search_location_max disk else st.search_location) := by
  rw [probe_step, if_pos h]
  split <;> simp

/-- Witness for C8: a read error at the end of a one-cylinder disk. -/
theorem probe_step_read_error_witness :
    (probe_step ⟨512, 16, 63, 1, 516096, 516096, arch_t.ARCH_I386⟩
      (fun _ => true) 1 ⟨516096, [], [], indstop_t.INDSTOP_CONTINUE⟩ (-1)
      ⟨0, 0, upart_type_t.UP_UNKNOWN, status_t.STATUS_PRIM, 0, 0, 0⟩).good
      = [] ∧
    (probe_step ⟨512, 16, 63, 1, 516096, 516096, arch_t.ARCH_I386⟩
      (fun _ => true) 1 ⟨516096, [], [], indstop_t.INDSTOP_CONTINUE⟩ (-1)
      ⟨0, 0, upart_type_t.UP_UNKNOWN, status_t.STATUS_PRIM, 0, 0, 0⟩).bad
      = [] ∧
    (probe_step ⟨512, 16, 63, 1, 516096, 516096, arch_t.ARCH_I386⟩
      (fun _ => true) 1 ⟨516096, [], [], indstop_t.INDSTOP_CONTINUE⟩ (-1)
      ⟨0, 0, upart_type_t.UP_UNKNOWN, status_t.STATUS_PRIM, 0, 0, 0⟩).ind_stop
      = indstop_t.INDSTOP_CONTINUE ∧
    (probe_step ⟨512, 16, 63, 1, 516096, 516096, arch_t.ARCH_I386⟩
      (fun _ => true) 1 ⟨516096, [], [], indstop_t.INDSTOP_CONTINUE⟩ (-1)
      ⟨0, 0, upart_type_t.UP_UNKNOWN, status_t.STATUS_PRIM,
        0, 0, 0⟩).search_location
      = (if (516096 : Nat) ≤ 516096 then
          search_location_max ⟨512, 16, 63, 1, 516096, 516096,
            arch_t.ARCH_I386⟩ else 516096) :=
  probe_step_read_error ⟨512, 16, 63, 1, 516096, 516096, arch_t.ARCH_I386⟩
    (fun _ => true) 1 ⟨516096, [], [], indstop_t.INDSTOP_CONTINUE⟩ (-1)
    ⟨0, 0, upart_type_t.UP_UNKNOWN, status_t.STATUS_PRIM, 0, 0, 0⟩
    (by norm_num)

/-- The `INDSTOP_PLUS` jump of `search_part` (godmode.c:1167-1171): the
signal reverts to continue and the cursor advances by
`search_location_max / 20 / (1024*1024) * (1024*1014)` — note the literal
`1024 * 1014` in the source. -/
def plus_step (smax search_location : Nat) : Nat × indstop_t :=
  (search_location + smax / 20 / (1024 * 1024) * (1024 * 1014),
   indstop_t.INDSTOP_CONTINUE)

/-- The jump as the spec words it: 5% of `search_max`, floored to a whole
multiple of 1 MiB.  Kept for comparison with `plus_step`. -/
def plus_jump_spec (smax search_location : Nat) : Nat :=
  search_location + smax / 20 / (1024 * 1024) * (1024 * 1024)

/-- C2: at `search_max` = 20 MiB the source's plus-jump advances the
cursor by 1024·1014 = 1038336 bytes, not the 1 MiB = 1048576 bytes the
spec promises: the literal `1024 * 1014` at godmode.c:1170 is a typo for
`1024 * 1024`.  The signal does revert to continue. -/
theorem plus_step_bug :
    plus_step 20971520 0 = (1038336, indstop_t.INDSTOP_CONTINUE) ∧
    plus_jump_spec 20971520 0 = 1048576 ∧
    (plus_step 20971520 0).1 ≠ plus_jump_spec 20971520 0 := by
  decide

/-- The guard of the scan loop (godmode.c:804): the scan continues exactly
while the signal is not quit and the cursor is below the bound. -/
def scan_continues (ind : indstop_t) (search_location smax : Nat) : Bool :=
  !(ind == indstop_t.INDSTOP_QUIT) && decide (search_location < smax)

/-- C6 (amended): the scan loop of `search_part` terminates exactly when
the signal is quit or the cursor reaches `search_location_max`, and
`search_location_max` is the declared disk size rounded *down* to a
cylinder boundary plus one full cylinder (not rounded up), maxed with the
real size. -/
theorem scan_termination (disk : disk_t) (ind : indstop_t) (loc : Nat) :
    (scan_continues ind loc (search_location_max disk) = false ↔
      ind = indstop_t.INDSTOP_QUIT ∨ search_location_max disk ≤ loc) ∧
    search_location_max disk
      = max (disk.disk_size / cylinder_size disk * cylinder_size disk
          + cylinder_size disk) disk.disk_real_size := by
  constructor
  · simp only [scan_continues, Bool.and_eq_false_iff, Bool.not_eq_false',
      beq_iff_eq, decide_eq_false_iff_not, Nat.not_lt]
  · rw [search_location_max, Nat.add_mul, Nat.one_mul]

/-- Counterexample for C6 as frozen: a disk whose declared size is exactly
one cylinder.  Rounding up would give `search_max = 516096`, but the code
computes `(516096/516096 + 1) * 516096 = 1032192`: one whole cylinder is
always added. -/
theorem search_max_rounding_counterexample :
    search_location_max ⟨512, 16, 63, 1, 516096, 516096, arch_t.ARCH_I386⟩
      = 1032192 ∧
    spec_search_max ⟨512, 16, 63, 1, 516096, 516096, arch_t.ARCH_I386⟩
      = 516096 ∧
    search_location_max ⟨512, 16, 63, 1, 516096, 516096, arch_t.ARCH_I386⟩
      ≠ spec_search_max ⟨512, 16, 63, 1, 516096, 516096, arch_t.ARCH_I386⟩ := by
  decide

/-- The descriptor a successful `recover_NTFS` yields for a probe at
`off`: `search_NTFS_from_backup` (godmode.c:682-688) sets the offset and
resets the size before the call, the recognizer fills the size and the
NTFS kind, and the caller stamps the status deleted; a front-sector match
has `sb_offset = 0`. -/
def ntfs_candidate (off size : Nat) : partition_t :=
  { part_offset := off, part_size := size,
    upart_type := upart_type_t.UP_NTFS, status := status_t.STATUS_DELETED,
    part_type_i386 := 7, order := 0, sb_offset := 0 }

/-- The admission gate of `search_NTFS_from_backup` (godmode.c:689-691),
the same four tests the main scan applies. -/
def ntfs_gate (is_known : partition_t → Bool) (min smax : Nat)
    (p : partition_t) : Bool :=
  is_known p && decide (1 < p.part_size) && decide (min ≤ p.part_offset)
    && decide (p.part_offset + p.part_size - 1 ≤ smax)

/-- The probe offsets `start - i * sector_size` for `i = 32, ..., 1`,
skipping the ones where `start` does not exceed `i * sector_size`
(godmode.c:677-681). -/
def backup_try_list (start ss : Nat) : List Nat :=
  ((List.range 32).map (fun j => 32 - j)).filterMap
    (fun i => if i * ss < start then some (start - i * ss) else none)

/-- The partitions one NTFS entry contributes: every probe offset whose
recovery succeeds and passes the admission gate. -/
def ntfs_backup_additions (recover : Nat → Option Nat)
    (is_known : partition_t → Bool) (min smax start ss : Nat) :
    List partition_t :=
  (backup_try_list start ss).filterMap (fun off =>
    (recover off).bind (fun size =>
      if ntfs_gate is_known min smax (ntfs_candidate off size) = true then
        some (ntfs_candidate off size)
      else none))

/-- `search_NTFS_from_backup` (godmode.c:665): for every NTFS entry with a
nonzero `sb_offset`, insert each admitted recovery into the list.  The
recognizer (external `recover_NTFS` plus the disk read) is abstracted as
`recover`, giving the recovered size at a probe offset. -/
def search_NTFS_from_backup (recover : Nat → Option Nat)
    (is_known : partition_t → Bool) (ss min smax : Nat)
    (list_part : List partition_t) : List partition_t :=
  list_part.foldl (fun acc e =>
    if e.upart_type = upart_type_t.UP_NTFS ∧ e.sb_offset ≠ 0 then
      (ntfs_backup_additions recover is_known min smax
        e.part_offset ss).foldl insert_new_partition acc
    else acc) list_part

/-- The retry phase as `search_part` runs it (godmode.c:1194-1195): only
in `fast_mode > 0`. -/
def ntfs_retry_phase (fast_mode : Nat) (recover : Nat → Option Nat)
    (is_known : partition_t → Bool) (ss min smax : Nat)
    (l : List partition_t) : List partition_t :=
  if 0 < fast_mode then search_NTFS_from_backup recover is_known ss min smax l
  else l

theorem mem_foldl_insert {adds acc : List partition_t} {q : partition_t} :
    q ∈ adds.foldl insert_new_partition acc ↔ q ∈ acc ∨ q ∈ adds := by
  induction adds generalizing acc with
  | nil => simp
  | cons a t ih =>
    rw [List.foldl_cons, ih, mem_insert_new_partition]
    simp only [List.mem_cons]
    tauto

theorem mem_backup_try_list {start ss off : Nat} :
    off ∈ backup_try_list start ss ↔
      ∃ i, 1 ≤ i ∧ i ≤ 32 ∧ i * ss < start ∧ off = start - i * ss := by
  simp only [backup_try_list, List.mem_filterMap, List.mem_map,
    List.mem_range]
  constructor
  · rintro ⟨i, ⟨j, hj, rfl⟩, hf⟩
    split at hf
    · rename_i hlt
      rw [Option.some.injEq] at hf
      exact ⟨32 - j, by omega, by omega, hlt, hf.symm⟩
    · cases hf
  · rintro ⟨i, h1, h2, h3, rfl⟩
    refine ⟨i, ⟨32 - i, by omega, by omega⟩, ?_⟩
    rw [if_pos h3]

theorem mem_ntfs_backup_additions {recover : Nat → Option Nat}
    {is_known : partition_t → Bool} {min smax start ss : Nat}
    {q : partition_t} :
    q ∈ ntfs_backup_additions recover is_known min smax start ss ↔
      ∃ i size, 1 ≤ i ∧ i ≤ 32 ∧ i * ss < start ∧
        recover (start - i * ss) = some size ∧
        ntfs_gate is_known min smax
          (ntfs_candidate (start - i * ss) size) = true ∧
        q = ntfs_candidate (start - i * ss) size := by
  simp only [ntfs_backup_additions, List.mem_filterMap, mem_backup_try_list]
  constructor
  · rintro ⟨off, ⟨i, h1, h2, h3, rfl⟩, hf⟩
    cases hrec : recover (start - i * ss) with
    | none => rw [hrec, Option.none_bind] at hf; cases hf
    | some size =>
      rw [hrec, Option.some_bind] at hf
      split at hf
      · rename_i hg
        rw [Option.some.injEq] at hf
        exact ⟨i, size, h1, h2, h3, hrec, hg, hf.symm⟩
      · cases hf
  · rintro ⟨i, size, h1, h2, h3, hrec, hg, rfl⟩
    refine ⟨start - i * ss, ⟨i, h1, h2, h3, rfl⟩, ?_⟩
    rw [hrec, Option.some_bind, if_pos hg]

theorem mem_search_NTFS_foldl (recover : Nat → Option Nat)
    (is_known : partition_t → Bool) (ss min smax : Nat) :
    ∀ (rest acc : List partition_t) (q : partition_t),
      (q ∈ rest.foldl (fun acc e =>
        if e.upart_type = upart_type_t.UP_NTFS ∧ e.sb_offset ≠ 0 then
          (ntfs_backup_additions recover is_known min smax
            e.part_offset ss).foldl insert_new_partition acc
        else acc) acc ↔
      q ∈ acc ∨ ∃ e ∈ rest,
        e.upart_type = upart_type_t.UP_NTFS ∧ e.sb_offset ≠ 0 ∧
        q ∈ ntfs_backup_additions recover is_known min smax
          e.part_offset ss) := by
  intro rest
  induction rest with
  | nil => simp
  | cons e t ih =>
    intro acc q
    rw [List.foldl_cons]
    by_cases he : e.upart_type = upart_type_t.UP_NTFS ∧ e.sb_offset ≠ 0
    · rw [if_pos he, ih, mem_foldl_insert]
      constructor
      · rintro ((h | h) | ⟨f, hf, h1, h2, h3⟩)
        · exact Or.inl h
        · exact Or.inr ⟨e, List.mem_cons_self _ _, he.1, he.2, h⟩
        · exact Or.inr ⟨f, List.mem_cons_of_mem _ hf, h1, h2, h3⟩
      · rintro (h | ⟨f, hf, h1, h2, h3⟩)
        · exact Or.inl (Or.inl h)
        · rcases List.mem_cons.mp hf with rfl | hf
          · exact Or.inl (Or.inr h3)
          · exact Or.inr ⟨f, hf, h1, h2, h3⟩
    · rw [if_neg he, ih]
      constructor
      · rintro (h | ⟨f, hf, h1, h2, h3⟩)
        · exact Or.inl h
        · exact Or.inr ⟨f, List.mem_cons_of_mem _ hf, h1, h2, h3⟩
      · rintro (h | ⟨f, hf, h1, h2, h3⟩)
        · exact Or.inl h
        · rcases List.mem_cons.mp hf with rfl | hf
          · exact absurd ⟨h1, h2⟩ he
          · exact Or.inr ⟨f, hf, h1, h2, h3⟩

/-- C7 (amended): when fast mode is positive, a partition is in the
retry-phase output exactly when it was already in the list or some NTFS
entry with nonzero `sb_offset` yields it at a probe offset
`start - i * sector_size` (`i = 32..1`, skipping non-positive offsets)
through a successful recovery that passes the same admission gates as the
main scan; in `fast_mode = 0` the retry does not run at all. -/
theorem ntfs_backup_retry_spec (fast_mode : Nat) (recover : Nat → Option Nat)
    (is_known : partition_t → Bool) (ss min smax : Nat)
    (l : List partition_t) (q : partition_t) :
    q ∈ ntfs_retry_phase fast_mode recover is_known ss min smax l ↔
      q ∈ l ∨ (0 < fast_mode ∧ ∃ e ∈ l,
        e.upart_type = upart_type_t.UP_NTFS ∧ e.sb_offset ≠ 0 ∧
        ∃ i size, 1 ≤ i ∧ i ≤ 32 ∧ i * ss < e.part_offset ∧
          recover (e.part_offset - i * ss) = some size ∧
          ntfs_gate is_known min smax
            (ntfs_candidate (e.part_offset - i * ss) size) = true ∧
          q = ntfs_candidate (e.part_offset - i * ss) size) := by
  rw [ntfs_retry_phase]
  split
  · rename_i hfm
    rw [search_NTFS_from_backup, mem_search_NTFS_foldl]
    simp only [mem_ntfs_backup_additions]
    constructor
    · rintro (h | ⟨e, he, h1, h2, h3⟩)
      · exact Or.inl h
      · exact Or.inr ⟨hfm, e, he, h1, h2, h3⟩
    · rintro (h | ⟨_, e, he, h1, h2, h3⟩)
      · exact Or.inl h
      · exact Or.inr ⟨e, he, h1, h2, h3⟩
  · rename_i hfm
    constructor
    · exact Or.inl
    · rintro (h | ⟨hpos, _⟩)
      · exact h
      · exact absurd hpos hfm

/-- The recovery oracle for the C7 counterexample: exactly one probe
offset succeeds. -/
def recover_one : Nat → Option Nat :=
  fun off => if off = 1536 then some 8192 else none

/-- Counterexample for C7 as frozen: with `fast_mode = 0` the scanner
never runs the NTFS-backup retry (godmode.c:1194 guards it with
`fast_mode > 0`), so a recovery that succeeds at `start − 1·sector_size`
and passes every admission gate is still not added. -/
theorem ntfs_backup_retry_counterexample :
    ntfs_retry_phase 0 recover_one (fun _ => true) 512 512 1032192
      [⟨2048, 8192, upart_type_t.UP_NTFS, status_t.STATUS_DELETED, 7, 0, 512⟩]
      = [⟨2048, 8192, upart_type_t.UP_NTFS, status_t.STATUS_DELETED,
          7, 0, 512⟩] ∧
    recover_one (2048 - 1 * 512) = some 8192 ∧
    ntfs_gate (fun _ => true) 512 1032192 (ntfs_candidate 1536 8192) = true ∧
    ntfs_candidate 1536 8192
      ∉ [(⟨2048, 8192, upart_type_t.UP_NTFS, status_t.STATUS_DELETED,
          7, 0, 512⟩ : partition_t)] := by
  decide

/-- The removal pass of `add_ext_part_i386` (godmode.c:1426-1458): drop
every `STATUS_EXT` entry. -/
def removeExt (l : List partition_t) : List partition_t :=
  l.filter (fun p => !(p.status == status_t.STATUS_EXT))

/-- The `order` the removal pass of `add_ext_part_i386` captures: the
order of the last removed extended entry, 0 when there is none. -/
def ext_order (l : List partition_t) : Nat :=
  (l.filter (fun p => p.status == status_t.STATUS_EXT)).foldl
    (fun _ p => p.order) 0

/-- The entries before the first logical one (`deb`). -/
def before_first_log (l : List partition_t) : List partition_t :=
  l.takeWhile (fun p => !(p.status == status_t.STATUS_LOG))

/-- `deb`: the first logical entry. -/
def first_log (l : List partition_t) : Option partition_t :=
  (l.dropWhile (fun p => !(p.status == status_t.STATUS_LOG))).head?

/-- `deb->prev`: the entry just before the first logical one. -/
def prev_of_first_log (l : List partition_t) : Option partition_t :=
  (before_first_log l).getLast?

/-- `fin`: the last logical entry. -/
def last_log (l : List partition_t) : Option partition_t :=
  (l.filter (fun p => p.status == status_t.STATUS_LOG)).getLast?

/-- `fin->next`: the entry just after the last logical one. -/
def next_of_last_log (l : List partition_t) : Option partition_t :=
  (l.reverse.takeWhile (fun p => !(p.status == status_t.STATUS_LOG))).getLast?

/-- `nbr_entries` counted by the removal pass: every non-logical
(non-extended) entry, plus one for the whole run of logical entries. -/
def nbr_entries (l : List partition_t) : Nat :=
  (l.filter (fun p => !(p.status == status_t.STATUS_LOG))).length
    + (if l.any (fun p => p.status == status_t.STATUS_LOG) then 1 else 0)

/-- The `deb->prev==NULL || tmp >= prev end` disjunct as a boolean. -/
def prev_gap_ok (prev? : Option partition_t) (tmp : Nat) : Bool :=
  match prev? with
  | none => true
  | some pr => decide (pr.part_offset + pr.part_size ≤ tmp)

/-- The max-mode boundary computation of `add_ext_part_i386`
(godmode.c:1462-1527): push the extended partition out to just after the
previous primary (or the head/1 MiB prefix) and just before the next
primary (or the disk end), rounded to MiB when the first logical is
MiB-aligned and to cylinder boundaries otherwise. -/
def ext_bounds_max (disk : disk_t) (prev? : Option partition_t)
    (deb fin : partition_t) (next? : Option partition_t) : Nat × Nat :=
  let ss := disk.sector_size
  let poff :=
    match prev? with
    | none =>
      let p0 := deb.part_offset - ss
      let tmp := if deb.part_offset % (1024 * 1024) = 0 then 1024 * 1024
        else disk.sectors_per_head * ss
      if tmp < p0 then tmp else p0
    | some pr =>
      let p0 := pr.part_offset + pr.part_size
      let tmp := if deb.part_offset % (1024 * 1024) = 0
        then (p0 + 1024 * 1024 - 1) / (1024 * 1024) * (1024 * 1024)
        else CHS2offset_inline disk
          ⟨offset2cylinder disk (p0 - 1) + 1, 0, 1⟩
      if tmp < deb.part_offset ∧ pr.part_offset + pr.part_size ≤ tmp then tmp
      else p0
  let pend0 :=
    match next? with
    | none =>
      let e0 := fin.part_offset + fin.part_size - ss
      if e0 < disk.disk_size - ss then disk.disk_size - ss else e0
    | some nx => nx.part_offset - ss
  let pend :=
    if poff % (1024 * 1024) = 0 then
      let tmp := pend0 / (1024 * 1024) * (1024 * 1024) - ss
      if fin.part_offset + fin.part_size - ss ≤ tmp then tmp else pend0
    else
      let tmp := CHS2offset_inline disk
        ⟨offset2cylinder disk pend0 - 1, disk.heads_per_cylinder - 1,
          disk.sectors_per_head⟩
      if fin.part_offset + fin.part_size - ss ≤ tmp then tmp else pend0
  (poff, pend)

/-- The min-mode boundary computation of `add_ext_part_i386`
(godmode.c:1528-1572): tightest enclosure of the logicals, rounded in with
the same MiB/cylinder rules. -/
def ext_bounds_min (disk : disk_t) (prev? : Option partition_t)
    (deb fin : partition_t) : Nat × Nat :=
  let ss := disk.sector_size
  let p0 := deb.part_offset - ss
  let tmp :=
    if deb.part_offset % (1024 * 1024) = 0 then
      p0 / (1024 * 1024) * (1024 * 1024)
    else
      CHS2offset_inline disk
        ⟨offset2cylinder disk p0,
          if offset2cylinder disk p0 = 0 then 1 else 0, 1⟩
  let poff :=
    if 0 < tmp ∧ tmp < deb.part_offset ∧ prev_gap_ok prev? tmp = true then tmp
    else p0
  let e0 := fin.part_offset + fin.part_size - ss
  let tmp2 :=
    if poff % (1024 * 1024) = 0 then
      (e0 + 1024 * 1024 - 1) / (1024 * 1024) * (1024 * 1024) - ss
    else
      CHS2offset_inline disk
        ⟨(offset2CHS_inline disk e0).cylinder, disk.heads_per_cylinder - 1,
          disk.sectors_per_head⟩
  let pend := if tmp2 < disk.disk_size then tmp2 else e0
  (poff, pend)

/-- The extended partition `add_ext_part_i386` synthesises
(godmode.c:1573-1578) from the ext-free list: bounds per mode, type
`P_EXTENDX` past cylinder 1023, status extended, the captured order.  The
fallback row is unreachable — it is only taken when the list has no
logical entry, and the caller returns before building a partition then. -/
def mk_ext_partition (disk : disk_t) (l : List partition_t) (max_ext : Bool)
    (ord : Nat) : partition_t :=
  match first_log l, last_log l with
  | some deb, some fin =>
    let be :=
      if nbr_entries l = 4 ∨ max_ext = true then
        ext_bounds_max disk (prev_of_first_log l) deb fin (next_of_last_log l)
      else ext_bounds_min disk (prev_of_first_log l) deb fin
    { part_offset := be.1
      part_size := be.2 - be.1 + disk.sector_size
      upart_type := upart_type_t.UP_UNKNOWN
      status := status_t.STATUS_EXT
      part_type_i386 := if 1023 < offset2cylinder disk be.2 then P_EXTENDX
        else P_EXTENDED
      order := ord
      sb_offset := 0 }
  | _, _ =>
    { part_offset := 0, part_size := 0, upart_type := upart_type_t.UP_UNKNOWN,
      status := status_t.STATUS_EXT, part_type_i386 := P_EXTENDED,
      order := ord, sb_offset := 0 }

/-- `add_ext_part_i386` (godmode.c:1413): drop the existing extended
entries (capturing the last one's order), return the remainder when no
logical entry is left, otherwise insert the synthesised extended
partition into the sorted remainder. -/
def add_ext_part_i386 (disk : disk_t) (list_part : List partition_t)
    (max_ext : Bool) : List partition_t :=
  if (removeExt list_part).any (fun p => p.status == status_t.STATUS_LOG) then
    insert_new_partition (removeExt list_part)
      (mk_ext_partition disk (removeExt list_part) max_ext
        (ext_order list_part))
  else removeExt list_part

theorem removeExt_removeExt (l : List partition_t) :
    removeExt (removeExt l) = removeExt l := by
  simp [removeExt, List.filter_filter]

theorem removeExt_no_ext (l : List partition_t) :
    ∀ x ∈ removeExt l, x.status ≠ status_t.STATUS_EXT := by
  intro x hx
  have := (List.mem_filter.mp hx).2
  simpa using this

theorem removeExt_insertSorted {p : partition_t}
    (hp : p.status = status_t.STATUS_EXT) :
    ∀ l, removeExt (insertSortedByOffset p l) = removeExt l := by
  intro l
  induction l with
  | nil => simp [insertSortedByOffset, removeExt, hp]
  | cons x t ih =>
    rw [insertSortedByOffset]
    split
    · show removeExt (p :: x :: t) = removeExt (x :: t)
      simp only [removeExt, List.filter_cons]
      rw [if_neg (by simp [hp])]
    · show removeExt (x :: insertSortedByOffset p t) = removeExt (x :: t)
      simp only [removeExt] at ih ⊢
      simp only [List.filter_cons, ih]

theorem extFilter_insertSorted {p : partition_t}
    (hp : p.status = status_t.STATUS_EXT) :
    ∀ l, (∀ x ∈ l, x.status ≠ status_t.STATUS_EXT) →
    List.filter (fun x => x.status == status_t.STATUS_EXT)
      (insertSortedByOffset p l) = [p] := by
  intro l
  induction l with
  | nil =>
    intro _
    simp [insertSortedByOffset, hp]
  | cons x t ih =>
    intro hl
    rw [insertSortedByOffset]
    split
    · rw [List.filter_cons_of_pos (by simp [hp]), List.filter_cons_of_neg
        (by simp [hl x (List.mem_cons_self _ _)])]
      congr 1
      rw [List.filter_eq_nil_iff]
      intro a ha
      simp [hl a (List.mem_cons_of_mem _ ha)]
    · rw [List.filter_cons_of_neg (by simp [hl x (List.mem_cons_self _ _)])]
      exact ih fun a ha => hl a (List.mem_cons_of_mem _ ha)

theorem removeExt_insert {p : partition_t} {l' : List partition_t}
    (hp : p.status = status_t.STATUS_EXT)
    (hl : ∀ x ∈ l', x.status ≠ status_t.STATUS_EXT)
    (hl2 : removeExt l' = l') :
    removeExt (insert_new_partition l' p) = l' := by
  have hnm : p ∉ l' := fun hm => hl p hm hp
  rw [insert_new_partition, if_neg hnm, removeExt_insertSorted hp l', hl2]

theorem ext_order_insert {p : partition_t} {l' : List partition_t}
    (hp : p.status = status_t.STATUS_EXT)
    (hl : ∀ x ∈ l', x.status ≠ status_t.STATUS_EXT) :
    ext_order (insert_new_partition l' p) = p.order := by
  have hnm : p ∉ l' := fun hm => hl p hm hp
  rw [insert_new_partition, if_neg hnm, ext_order,
    extFilter_insertSorted hp l' hl]
  rfl

theorem mk_ext_partition_status (disk : disk_t) (l : List partition_t)
    (max_ext : Bool) (ord : Nat) :
    (mk_ext_partition disk l max_ext ord).status = status_t.STATUS_EXT := by
  cases hfl : first_log l with
  | none => simp [mk_ext_partition, hfl]
  | some deb =>
    cases hll : last_log l with
    | none => simp [mk_ext_partition, hfl, hll]
    | some fin => simp [mk_ext_partition, hfl, hll]

theorem mk_ext_partition_order (disk : disk_t) (l : List partition_t)
    (max_ext : Bool) (ord : Nat) :
    (mk_ext_partition disk l max_ext ord).order = ord := by
  cases hfl : first_log l with
  | none => simp [mk_ext_partition, hfl]
  | some deb =>
    cases hll : last_log l with
    | none => simp [mk_ext_partition, hfl, hll]
    | some fin => simp [mk_ext_partition, hfl, hll]

/-- C9: extended-partition synthesis is idempotent — applying
`add_ext_part_i386` twice with the same min/max mode yields the same list
(the same entries, and in particular the same extended entry's offset,
size, type code and status) as applying it once. -/
theorem add_ext_part_i386_idempotent (disk : disk_t) (l : List partition_t)
    (max_ext : Bool)
    (_hs : List.Chain' (fun a b => a.part_offset ≤ b.part_offset) l) :
    add_ext_part_i386 disk (add_ext_part_i386 disk l max_ext) max_ext
      = add_ext_part_i386 disk l max_ext := by
  have hne : ∀ x ∈ removeExt l, x.status ≠ status_t.STATUS_EXT :=
    removeExt_no_ext l
  by_cases hlog :
      (removeExt l).any (fun p => p.status == status_t.STATUS_LOG) = true
  · have hps : (mk_ext_partition disk (removeExt l) max_ext
        (ext_order l)).status = status_t.STATUS_EXT :=
      mk_ext_partition_status disk (removeExt l) max_ext (ext_order l)
    have h1 : add_ext_part_i386 disk l max_ext
        = insert_new_partition (removeExt l)
          (mk_ext_partition disk (removeExt l) max_ext (ext_order l)) := by
      rw [add_ext_part_i386, if_pos hlog]
    have hrm : removeExt (insert_new_partition (removeExt l)
        (mk_ext_partition disk (removeExt l) max_ext (ext_order l)))
        = removeExt l :=
      removeExt_insert hps hne (removeExt_removeExt l)
    have hord : ext_order (insert_new_partition (removeExt l)
        (mk_ext_partition disk (removeExt l) max_ext (ext_order l)))
        = (mk_ext_partition disk (removeExt l) max_ext (ext_order l)).order :=
      ext_order_insert hps hne
    rw [h1, add_ext_part_i386, hrm, hord,
      mk_ext_partition_order disk (removeExt l) max_ext (ext_order l),
      if_pos hlog]
  · have h1 : add_ext_part_i386 disk l max_ext = removeExt l := by
      rw [add_ext_part_i386, if_neg hlog]
    rw [h1, add_ext_part_i386, removeExt_removeExt l, if_neg hlog]

/-- Witness for C9: one logical partition between two primaries on a
16/63/512 disk, in max mode. -/
theorem add_ext_part_i386_idempotent_witness :
    add_ext_part_i386 ⟨512, 16, 63, 130, 67108864, 67108864, arch_t.ARCH_I386⟩
      (add_ext_part_i386 ⟨512, 16, 63, 130, 67108864, 67108864,
        arch_t.ARCH_I386⟩
        [⟨1048576, 1048576, upart_type_t.UP_FAT32, status_t.STATUS_PRIM,
          11, 1, 0⟩,
         ⟨4194304, 1048576, upart_type_t.UP_FAT32, status_t.STATUS_LOG,
          11, 0, 0⟩,
         ⟨33554432, 1048576, upart_type_t.UP_FAT32, status_t.STATUS_PRIM,
          11, 2, 0⟩] true) true
      = add_ext_part_i386 ⟨512, 16, 63, 130, 67108864, 67108864,
        arch_t.ARCH_I386⟩
        [⟨1048576, 1048576, upart_type_t.UP_FAT32, status_t.STATUS_PRIM,
          11, 1, 0⟩,
         ⟨4194304, 1048576, upart_type_t.UP_FAT32, status_t.STATUS_LOG,
          11, 0, 0⟩,
         ⟨33554432, 1048576, upart_type_t.UP_FAT32, status_t.STATUS_PRIM,
          11, 2, 0⟩] true :=
  add_ext_part_i386_idempotent
    ⟨512, 16, 63, 130, 67108864, 67108864, arch_t.ARCH_I386⟩
    [⟨1048576, 1048576, upart_type_t.UP_FAT32, status_t.STATUS_PRIM, 11, 1, 0⟩,
     ⟨4194304, 1048576, upart_type_t.UP_FAT32, status_t.STATUS_LOG, 11, 0, 0⟩,
     ⟨33554432, 1048576, upart_type_t.UP_FAT32, status_t.STATUS_PRIM,
      11, 2, 0⟩] true
    (by simp [List.chain'_cons, List.chain'_singleton])

end TestDisk
